import Mathlib

/-!
Verification of the git_cdn core (pack cache, repo cache, upload-pack
orchestration) against its natural-language specification.

Byte strings are modelled as `List Nat` (one `Nat` per byte).  Python code
that can raise is modelled with `Except PyExc`; the distinct Python
exception classes that the modelled code can raise are collected in `PyExc`.
-/

/-- ASCII bytes of a string literal. -/
def strB (s : String) : List Nat := s.data.map Char.toNat

/-- Python's `pat in s` substring test on bytes. -/
def containsSub (pat : List Nat) : List Nat → Bool
  | [] => pat.isEmpty
  | c :: rest => pat.isPrefixOf (c :: rest) || containsSub pat rest

/-- The Python exceptions the modelled code can raise. -/
inductive PyExc where
  | osError (msg : String)
  | indexError (msg : String)
  | nameError (msg : String)
  | httpInternalServerError (reason : List Nat)
  | httpUnauthorized (reason : List Nat)
deriving DecidableEq

deriving instance DecidableEq for Except

/-! ## Pack cache entry (`pack_cache.py`, class `PackCache`)

A pack cache file on disk is `none` when the file does not exist and
`some bs` when it exists with content bytes `bs`. -/

/-- `PackCache.exists` (pack_cache.py lines 51-59):
`os.path.exists` and `st_size > 0`, then `f.seek(-4, os.SEEK_END)` followed
by `f.read(4)` compared against `b"0000"`.  For a file of size 1 to 3 the
seek target is a negative offset and `lseek` fails with `EINVAL`, so Python
raises `OSError` out of `exists()` instead of returning a value. -/
def packCacheExists (file : Option (List Nat)) : Except PyExc Bool :=
  match file with
  | none => .ok false
  | some bs =>
    if bs.length > 0 then
      if bs.length < 4 then .error (.osError "Invalid argument")
      else .ok (decide (bs.drop (bs.length - 4) = strB "0000"))
    else .ok false

example : packCacheExists (some (strB "0008ab\x00\x00" ++ strB "0000")) = .ok true := by decide
example : packCacheExists (some (strB "0008abcd0001")) = .ok false := by decide
example : packCacheExists (some []) = .ok false := by decide
example : packCacheExists (some [48]) = .error (.osError "Invalid argument") := by decide

/-- Claim C1 counterexample: for a 1-byte cache file the claim says
`exists()` returns `false`, but the code raises `OSError` from the
negative `f.seek(-4, os.SEEK_END)` and returns nothing. -/
theorem c1_counterexample : packCacheExists (some [48]) ≠ Except.ok false := by
  decide

/-- Claim C1 (amended): `exists()` returns `true` iff the file is present,
nonempty and its last four bytes are `b"0000"`; it returns `false` for a
missing or empty file and for a file of size at least 4 whose last four
bytes differ from `b"0000"`; but for a file of size 1 to 3 it raises
`OSError` instead of returning `false`. -/
theorem c1_exists_valid (bs : List Nat) :
    packCacheExists none = Except.ok false ∧
    packCacheExists (some []) = Except.ok false ∧
    (∀ pre : List Nat, packCacheExists (some (pre ++ strB "0000")) = Except.ok true) ∧
    (4 ≤ bs.length → bs.drop (bs.length - 4) ≠ strB "0000" →
      packCacheExists (some bs) = Except.ok false) ∧
    (1 ≤ bs.length → bs.length ≤ 3 →
      packCacheExists (some bs) = Except.error (PyExc.osError "Invalid argument")) := by
  refine ⟨rfl, rfl, ?_, ?_, ?_⟩
  · intro pre
    have hlen : (pre ++ strB "0000").length = pre.length + 4 := by
      simp [strB]
    have hdrop : (pre ++ strB "0000").drop ((pre ++ strB "0000").length - 4) = strB "0000" := by
      rw [hlen]
      have : pre.length + 4 - 4 = pre.length := by omega
      rw [this]
      exact List.drop_left pre (strB "0000")
    simp only [packCacheExists, hlen, hdrop]
    have h1 : 0 < pre.length + 4 := by omega
    have h2 : ¬ pre.length + 4 < 4 := by omega
    simp [h1, h2]
  · intro h4 hne
    simp only [packCacheExists]
    have h1 : 0 < bs.length := by omega
    have h2 : ¬ bs.length < 4 := by omega
    simp [h1, h2, hne]
  · intro h1 h3
    simp only [packCacheExists]
    have h2 : bs.length < 4 := by omega
    simp [Nat.lt_of_lt_of_le Nat.zero_lt_one h1, h2]

/-- Witness for `c1_exists_valid`: a concrete 4-byte file not ending in
`b"0000"` is reported absent. -/
theorem c1_witness :
    4 ≤ ([49, 49, 49, 49] : List Nat).length ∧
      packCacheExists (some [49, 49, 49, 49]) = Except.ok false :=
  ⟨by decide, (c1_exists_valid [49, 49, 49, 49]).2.2.2.1 (by decide) (by decide)⟩

/-! ## Pack cache cleaner (`pack_cache.py`, class `PackCacheCleaner`)

A cache entry as seen by `_clean_task` is just its size and its mtime
(`DirEntry.stat().st_size` / `st_mtime`). -/

structure CFile where
  size : Nat
  mtime : Nat
deriving DecidableEq

/-- Sort key used by `all_files.sort(key=lambda f: f.stat().st_mtime, ...)`. -/
def mtimeLE (a b : CFile) : Prop := a.mtime ≤ b.mtime

instance : DecidableRel mtimeLE := fun a b => Nat.decLe a.mtime b.mtime

instance : IsTotal CFile mtimeLE := ⟨fun a b => Nat.le_total a.mtime b.mtime⟩

instance : IsTrans CFile mtimeLE := ⟨fun _ _ _ => Nat.le_trans⟩

/-- Total size of a list of cache entries, as a Python int. -/
def sumSize (l : List CFile) : Int := (l.map fun f => (f.size : Int)).sum

/-- `PackCacheCleaner.__init__` (pack_cache.py lines 141-143):
`max_size = (int(PACK_CACHE_SIZE_GB) * 1024 - 512) * 1024 * 1024`. -/
def packCacheMaxSize (gb : Nat) : Int := ((gb : Int) * 1024 - 512) * 1024 * 1024

/-- The eviction loop of `_clean_task` (pack_cache.py lines 166-171):
`while total_size - rm_size >= self.max_size: f = all_files.pop(); ...`.
Python sorts the list by mtime descending and pops from its end, which
visits entries in ascending mtime order; the model keeps the list in
ascending mtime order and pops from the front.  Popping from an empty
list would raise `IndexError` in Python. -/
def evict (maxSize total : Int) : List CFile → Int → Except PyExc (List CFile)
  | fs, rm =>
    if maxSize ≤ total - rm then
      match fs with
      | [] => .error (.indexError "pop from empty list")
      | f :: rest =>
        match evict maxSize total rest (rm + f.size) with
        | .ok del => .ok (f :: del)
        | .error e => .error e
    else .ok []

/-- `PackCacheCleaner._clean_task` (pack_cache.py lines 146-191), reduced to
its decision: which entries are deleted.  Returns the deleted entries in
the order they are popped (ascending mtime); the Python return value is
`0` in the under-target branch and `len(to_delete)` otherwise. -/
def cleanTask (files : List CFile) (maxSize : Int) : Except PyExc (List CFile) :=
  let total := sumSize files
  if total < maxSize then .ok []
  else evict maxSize total (List.insertionSort mtimeLE files) 0

theorem evict_spec (maxSize : Int) (hpos : 0 < maxSize) :
    ∀ (fs : List CFile) (rm total : Int), total = rm + sumSize fs →
      ∃ del kept, evict maxSize total fs rm = .ok del ∧ fs = del ++ kept ∧
        sumSize kept < maxSize ∧
        ∀ n, n < del.length → maxSize ≤ sumSize (fs.drop n) := by
  intro fs
  induction fs with
  | nil =>
    intro rm total htot
    have h0 : sumSize [] = 0 := rfl
    have : ¬ maxSize ≤ total - rm := by
      rw [htot, h0]
      omega
    refine ⟨[], [], ?_, rfl, by simpa [h0] using hpos, by intro n hn; simp at hn⟩
    simp [evict, this]
  | cons f rest ih =>
    intro rm total htot
    have hsum : sumSize (f :: rest) = (f.size : Int) + sumSize rest := by
      simp [sumSize]
    by_cases hc : maxSize ≤ total - rm
    · obtain ⟨del', kept, hev, hsplit, hkept, hmin⟩ :=
        ih (rm + f.size) total (by rw [htot, hsum]; ring)
      refine ⟨f :: del', kept, ?_, by rw [hsplit]; rfl, hkept, ?_⟩
      · simp [evict, hc, hev]
      · intro n hn
        match n with
        | 0 =>
          have : sumSize (f :: rest) = total - rm := by omega
          simpa [this] using hc
        | m + 1 =>
          have hm : m < del'.length := by simpa using hn
          simpa using hmin m hm
    · refine ⟨[], f :: rest, ?_, rfl, ?_, by intro n hn; simp at hn⟩
      · simp [evict, hc]
      · have : total - rm < maxSize := by omega
        omega

theorem packCacheMaxSize_pos {gb : Nat} (hgb : 1 ≤ gb) : 0 < packCacheMaxSize gb := by
  have h1 : (1 : Int) ≤ (gb : Int) := by exact_mod_cast hgb
  unfold packCacheMaxSize
  nlinarith

/-- Claim C2: with target `(PACK_CACHE_SIZE_GB * 1024 - 512) MiB`,
`_clean_task` deletes nothing when the total is under the target;
otherwise it deletes a prefix of the mtime-ascending order (oldest first),
stopping as soon as the remaining total is strictly below the target, so
the retained entries are exactly the most-recently-touched suffix whose
cumulative size is under the target, and every deleted entry is strictly
older than every retained one. -/
theorem c2_clean_task_lru (gb : Nat) (hgb : 1 ≤ gb) (files : List CFile)
    (hdist : files.Pairwise fun a b => a.mtime ≠ b.mtime) :
    (sumSize files < packCacheMaxSize gb →
      cleanTask files (packCacheMaxSize gb) = Except.ok []) ∧
    (packCacheMaxSize gb ≤ sumSize files →
      ∃ del kept, cleanTask files (packCacheMaxSize gb) = Except.ok del ∧
        List.insertionSort mtimeLE files = del ++ kept ∧
        sumSize kept < packCacheMaxSize gb ∧
        (∀ n, n < del.length → packCacheMaxSize gb ≤ sumSize ((del ++ kept).drop n)) ∧
        (∀ d ∈ del, ∀ k ∈ kept, d.mtime < k.mtime)) := by
  constructor
  · intro h
    simp [cleanTask, h]
  · intro h
    have hpos := packCacheMaxSize_pos hgb
    have hperm := List.perm_insertionSort mtimeLE files
    have hsumeq : sumSize (List.insertionSort mtimeLE files) = sumSize files := by
      unfold sumSize
      exact (hperm.map fun f => (f.size : Int)).sum_eq
    obtain ⟨del, kept, hev, hsplit, hkept, hmin⟩ :=
      evict_spec (packCacheMaxSize gb) hpos (List.insertionSort mtimeLE files) 0
        (sumSize files) (by rw [hsumeq]; ring)
    refine ⟨del, kept, ?_, hsplit, hkept, ?_, ?_⟩
    · have hnot : ¬ sumSize files < packCacheMaxSize gb := by omega
      simp only [cleanTask, hnot, if_false]
      exact hev
    · intro n hn
      have := hmin n hn
      rwa [hsplit] at this
    · have hsorted : List.Sorted mtimeLE (del ++ kept) := by
        rw [← hsplit]
        exact List.sorted_insertionSort mtimeLE files
    -- mtimes are pairwise distinct on the sorted list as well
      have hdist2 : List.Pairwise (fun a b : CFile => a.mtime ≠ b.mtime) (del ++ kept) := by
        rw [← hsplit]
        exact ((hperm.pairwise_iff fun hab => hab.symm).2 hdist)
      intro d hd k hk
      have hle : mtimeLE d k :=
        (List.pairwise_append.1 hsorted).2.2 d hd k hk
      have hne : d.mtime ≠ k.mtime :=
        (List.pairwise_append.1 hdist2).2.2 d hd k hk
      exact lt_of_le_of_ne hle hne

/-- Witness for `c2_clean_task_lru`: three single-GiB entries against the
default 20 GiB target (19968 MiB): the total exceeds the target, so the
two oldest are evicted and only the newest is retained. -/
theorem c2_witness :
    packCacheMaxSize 20 ≤
        sumSize [⟨10468982784, 1⟩, ⟨10468982784, 2⟩, ⟨10468982784, 3⟩] ∧
      ∃ del kept,
        cleanTask [⟨10468982784, 1⟩, ⟨10468982784, 2⟩, ⟨10468982784, 3⟩]
            (packCacheMaxSize 20) = Except.ok del ∧
          List.insertionSort mtimeLE
              [⟨10468982784, 1⟩, ⟨10468982784, 2⟩, ⟨10468982784, 3⟩] = del ++ kept ∧
          sumSize kept < packCacheMaxSize 20 ∧
          (∀ n, n < del.length →
            packCacheMaxSize 20 ≤ sumSize ((del ++ kept).drop n)) ∧
          (∀ d ∈ del, ∀ k ∈ kept, d.mtime < k.mtime) :=
  ⟨by decide,
    (c2_clean_task_lru 20 (by decide)
      [⟨10468982784, 1⟩, ⟨10468982784, 2⟩, ⟨10468982784, 3⟩] (by decide)).2 (by decide)⟩

/-! ## Upload-pack orchestration, cached path
(`upload_pack.py`, `UploadPackHandler._run_with_cache`, lines 134-160)

The three existence probes (under the first shared lock, under the
exclusive lock, under the second shared lock) and the final
`upload_pack_status` context variable are inputs to the control flow;
each probe is an oracle boolean because other workers may change the
cache file between the lock scopes. -/

inductive RWCOutcome where
  | servedHit          -- cache hit under the first shared lock
  | servedAfterFill    -- served under the second shared lock
  | raisedRuntimeError -- `raise RuntimeError("Run with cache failed")`
  | raisedKeyError     -- `get_contextvars()["upload_pack_status"]` missing
  | returnedSilently   -- fell through with status "error"
deriving DecidableEq

structure RWCResult where
  outcome : RWCOutcome
  executeCalled : Bool
deriving DecidableEq

/-- `UploadPackHandler._run_with_cache` (upload_pack.py lines 134-160).
`exists1`, `exists2`, `exists3` are the results of `self.pcache.exists()`
under the first read lock, the write lock and the second read lock;
`status` is the `upload_pack_status` context variable at the final check
(`none` when never bound, in which case Python raises `KeyError`). -/
def runWithCache (exists1 exists2 exists3 : Bool) (status : Option String) : RWCResult :=
  if exists1 then ⟨.servedHit, false⟩
  else
    let ex := !exists2
    if exists3 then ⟨.servedAfterFill, ex⟩
    else
      match status with
      | none => ⟨.raisedKeyError, ex⟩
      | some s => if s ≠ "error" then ⟨.raisedRuntimeError, ex⟩ else ⟨.returnedSilently, ex⟩

/-- Claim C3: after the shared-lock probe misses, `_execute` is invoked
exactly when the exclusive-lock re-check still reports the entry absent;
and when the second shared-lock probe also misses, `RuntimeError("Run with
cache failed")` is raised exactly when the recorded `upload_pack_status`
is not `"error"`, and the handler returns silently when it is `"error"`. -/
theorem c3_run_with_cache (e2 e3 : Bool) (s : String) :
    (runWithCache false e2 e3 (some s)).executeCalled = !e2 ∧
    (e3 = false →
      (((runWithCache false e2 e3 (some s)).outcome = RWCOutcome.raisedRuntimeError) ↔
        s ≠ "error") ∧
      (s = "error" →
        (runWithCache false e2 e3 (some s)).outcome = RWCOutcome.returnedSilently)) := by
  constructor
  · cases e3 <;> by_cases hs : s = "error" <;> simp [runWithCache, hs]
  · intro h3
    subst h3
    by_cases hs : s = "error" <;> simp [runWithCache, hs]

/-- Witness for `c3_run_with_cache`: entry never appears and the recorded
status is `"hit"`; `_execute` was called and the `RuntimeError` is raised. -/
theorem c3_witness :
    (runWithCache false false false (some "hit")).executeCalled = true ∧
      (runWithCache false false false (some "hit")).outcome =
        RWCOutcome.raisedRuntimeError :=
  ⟨(c3_run_with_cache false false "hit").1,
    ((c3_run_with_cache false false "hit").2 rfl).1.mpr (by decide)⟩

/-! ## Repo cache freshness (`repo_cache.py`, `RepoCache.update`, lines 216-227) -/

inductive UpdateAction where
  | acquireWriteLock
  | clone
  | fetch
  | releaseWriteLock
deriving DecidableEq

/-- `RepoCache.update` (repo_cache.py lines 216-227).  `prevMtime` is
`self.mtime()` observed before acquiring the write lock (`none` when the
directory does not exist); `cur` is the directory state seen under the
lock (`none` absent, `some m` present with mtime `m`).  Returns the
sequence of actions performed. -/
def updateModel (prevMtime : Option Nat) (cur : Option Nat) : List UpdateAction :=
  [UpdateAction.acquireWriteLock] ++
    (match cur with
     | none => [UpdateAction.clone, UpdateAction.fetch]
     | some m => if prevMtime = some m then [UpdateAction.fetch] else []) ++
    [UpdateAction.releaseWriteLock]

/-- Claim C7: `update()` always works under the write lock; with the
directory absent it clones then fetches; with the directory present and
its mtime unchanged since the pre-lock observation it fetches; and with
the mtime advanced it does nothing. -/
theorem c7_update (prev cur : Option Nat) :
    (∃ body, updateModel prev cur =
        [UpdateAction.acquireWriteLock] ++ body ++ [UpdateAction.releaseWriteLock]) ∧
    (cur = none → updateModel prev cur =
      [UpdateAction.acquireWriteLock, UpdateAction.clone, UpdateAction.fetch,
        UpdateAction.releaseWriteLock]) ∧
    (∀ m, cur = some m → prev = some m → updateModel prev cur =
      [UpdateAction.acquireWriteLock, UpdateAction.fetch, UpdateAction.releaseWriteLock]) ∧
    (∀ m, cur = some m → prev ≠ some m → updateModel prev cur =
      [UpdateAction.acquireWriteLock, UpdateAction.releaseWriteLock]) := by
  refine ⟨?_, ?_, ?_, ?_⟩
  · exact ⟨_, rfl⟩
  · intro h
    subst h
    rfl
  · intro m hc hp
    subst hc
    simp [updateModel, hp]
  · intro m hc hp
    subst hc
    simp [updateModel, hp]

/-- Witness for `c7_update`: the second racer sees the mtime advanced from
5 to 7 and performs no clone and no fetch under the lock. -/
theorem c7_witness :
    updateModel (some 5) (some 7) =
      [UpdateAction.acquireWriteLock, UpdateAction.releaseWriteLock] :=
  (c7_update (some 5) (some 7)).2.2.2 7 rfl (by decide)

/-! ## Repo cache clone/fetch retry (`repo_cache.py`, lines 24-25, 136-190)

The observable result of one `run_git` invocation is its stdout, stderr
and returncode; the attempts of a retry loop are supplied by an oracle
(`Nat → GitResult` indexed by iteration for `fetch`, one list entry per
iteration for `clone`). -/

structure GitResult where
  stdout : List Nat
  stderr : List Nat
  returncode : Int
deriving DecidableEq

/-- `BACKOFF_START` default (repo_cache.py line 24): `0.5` seconds. -/
def BACKOFF_START : ℚ := 1 / 2

/-- `BACKOFF_COUNT` default (repo_cache.py line 25): `5` attempts. -/
def BACKOFF_COUNT : Nat := 5

/-- Modelled from the spec: `backoff(start, count)` from `git_cdn/util.py`
is not under src/; per the spec it yields an exponential retry schedule of
`count` timeouts starting at `start` seconds. -/
def backoff (start : ℚ) (count : Nat) : List ℚ :=
  (List.range count).map fun i => start * 2 ^ i

theorem backoff_default :
    backoff BACKOFF_START BACKOFF_COUNT = [1 / 2, 1, 2, 4, 8] := by
  norm_num [backoff, BACKOFF_START, BACKOFF_COUNT, List.range_succ]

inductive FetchEvent where
  | attempt (i : Nat) (returncode : Int)
  | sleep (t : ℚ)
  | utime
deriving DecidableEq

/-- The retry loop of `RepoCache.fetch` (repo_cache.py lines 137-154):
`for timeout in backoff(...)`: run git fetch, break on returncode 0,
otherwise `await asyncio.sleep(timeout)` and continue. -/
def fetchLoopEvents (results : Nat → GitResult) : List ℚ → Nat → List FetchEvent
  | [], _ => []
  | t :: ts, i =>
    FetchEvent.attempt i (results i).returncode ::
      (if (results i).returncode = 0 then []
       else FetchEvent.sleep t :: fetchLoopEvents results ts (i + 1))

/-- `RepoCache.fetch` (repo_cache.py lines 136-155).  After the loop the
code unconditionally runs `self.utime()` and returns: there is no raise
statement in `fetch`, so its body always ends in `ok`, with the `utime`
event last. -/
def fetchModel (results : Nat → GitResult) : Except PyExc (List FetchEvent) :=
  Except.ok
    (fetchLoopEvents results (backoff BACKOFF_START BACKOFF_COUNT) 0 ++ [FetchEvent.utime])

/-- One iteration of the `RepoCache.clone` retry loop as an oracle triple:
whether the bundle file exists at this iteration, the result of the
bundle-clone `run_git` (consulted only when the bundle exists), and the
result of the url-clone `run_git`. -/
structure CloneAttempt where
  bundleFile : Bool
  bundleRes : GitResult
  urlRes : GitResult
deriving DecidableEq

/-- The retry loop of `RepoCache.clone` (repo_cache.py lines 159-188),
returning Python's `(stderr, returncode)` binding when the loop ends.
One list entry per `backoff` timeout, so a default run has
`BACKOFF_COUNT = 5` entries.  Per iteration: when the bundle file exists,
`git clone --bare <bundle>` is tried and breaks the loop on success (on
failure the bundle is unlinked and control falls through); then
`git clone --bare <url>` runs and breaks on success.  `none` is the
"loop body never ran" case in which `returncode` is unbound. -/
def cloneLoop : List CloneAttempt → Option GitResult
  | [] => none
  | a :: rest =>
    if a.bundleFile ∧ a.bundleRes.returncode = 0 then some a.bundleRes
    else if a.urlRes.returncode = 0 then some a.urlRes
    else
      match rest with
      | [] => some a.urlRes
      | _ :: _ => cloneLoop rest

/-- `RepoCache.clone` (repo_cache.py lines 157-190): after the retry loop,
`if returncode != 0: raise HTTPInternalServerError(reason=stderr.decode())`
(with `BACKOFF_COUNT = 0` Python would raise `NameError` instead). -/
def cloneModel (attempts : List CloneAttempt) : Except PyExc Unit :=
  match cloneLoop attempts with
  | none => .error (.nameError "returncode")
  | some r =>
    if r.returncode ≠ 0 then .error (.httpInternalServerError r.stderr) else .ok ()

/-- A concrete always-failing git attempt. -/
def failResult : GitResult := { stdout := [], stderr := strB "fatal: error", returncode := 128 }

/-- Claim C4 counterexample: with every one of the five fetch attempts
failing (returncode 128), `fetch()` does not raise an internal error: it
runs to completion (five attempts, five backoff sleeps of 0.5, 1, 2, 4
and 8 seconds, then the final `utime`). -/
theorem c4_counterexample :
    fetchModel (fun _ => failResult) =
      Except.ok
        [FetchEvent.attempt 0 128, FetchEvent.sleep (1 / 2),
         FetchEvent.attempt 1 128, FetchEvent.sleep 1,
         FetchEvent.attempt 2 128, FetchEvent.sleep 2,
         FetchEvent.attempt 3 128, FetchEvent.sleep 4,
         FetchEvent.attempt 4 128, FetchEvent.sleep 8, FetchEvent.utime] := by
  simp only [fetchModel, backoff_default]
  rfl

/-- When every attempt fails, the clone loop ends on the last attempt's
url-clone result. -/
theorem cloneLoop_all_fail :
    ∀ attempts : List CloneAttempt,
      (∀ a ∈ attempts, a.bundleRes.returncode ≠ 0 ∧ a.urlRes.returncode ≠ 0) →
      cloneLoop attempts = (attempts.getLast?).map fun a => a.urlRes := by
  intro attempts
  induction attempts with
  | nil => intro _; rfl
  | cons a rest ih =>
    intro hfail
    have ha := hfail a (List.mem_cons_self a rest)
    have hb : ¬ (a.bundleFile = true ∧ a.bundleRes.returncode = 0) := by
      rintro ⟨_, h0⟩
      exact ha.1 h0
    match rest with
    | [] => simp [cloneLoop, hb, ha.2]
    | b :: rest' =>
      have hrest := ih fun x hx => hfail x (List.mem_cons_of_mem a hx)
      rw [cloneLoop.eq_3]
      simp only [hb, if_false, ha.2, ite_false]
      rw [hrest, List.getLast?_cons_cons]

/-- Claim C4 (amended): a nonzero returncode is retried over the backoff
schedule in both `clone()` and `fetch()`; when every attempt fails,
`clone()` raises `HTTPInternalServerError` carrying the stderr of the
last attempt, but `fetch()` does not raise: it returns normally and still
bumps the mtime. -/
theorem c4_retry_exhaustion (attempts : List CloneAttempt) (last : CloneAttempt)
    (hlast : attempts.getLast? = some last)
    (hfail : ∀ a ∈ attempts, a.bundleRes.returncode ≠ 0 ∧ a.urlRes.returncode ≠ 0)
    (results : Nat → GitResult) :
    cloneModel attempts = Except.error (PyExc.httpInternalServerError last.urlRes.stderr) ∧
    ∃ evs, fetchModel results = Except.ok evs := by
  constructor
  · have hloop := cloneLoop_all_fail attempts hfail
    rw [hlast] at hloop
    have hmem : last ∈ attempts := List.mem_of_mem_getLast? hlast
    have hrc := (hfail last hmem).2
    simp [cloneModel, hloop, hrc]
  · exact ⟨_, rfl⟩

/-- Witness for `c4_retry_exhaustion`: five failing clone attempts produce
the 500 error carrying the last stderr. -/
theorem c4_witness :
    cloneModel (List.replicate 5 ⟨false, failResult, failResult⟩) =
      Except.error (PyExc.httpInternalServerError (strB "fatal: error")) :=
  (c4_retry_exhaustion (List.replicate 5 ⟨false, failResult, failResult⟩)
    ⟨false, failResult, failResult⟩ (by decide)
    (by intro a ha; simp at ha; subst ha; exact ⟨by decide, by decide⟩)
    (fun _ => failResult)).1

/-- Claim C10: `fetch()` always returns normally with the mtime bump
(`self.utime()`) as its final action, whatever the attempt results —
including when every retry attempt ends with a nonzero returncode. -/
theorem c10_fetch_always_utime (results : Nat → GitResult) :
    ∃ evs, fetchModel results = Except.ok evs ∧
      evs.getLast? = some FetchEvent.utime :=
  ⟨_, rfl, List.getLast?_concat _⟩

/-! ## Packet-line framing and the upload-pack error path
(`upload_pack.py`, lines 105-124 and 216-232) -/

/-- ASCII of a single lowercase hex digit. -/
def hexChar (d : Nat) : Nat := if d < 10 then 48 + d else 87 + d

/-- Four lowercase hex digits, most significant first (`b"%04x" % n`). -/
def toHex4 (n : Nat) : List Nat :=
  [hexChar (n / 4096 % 16), hexChar (n / 256 % 16), hexChar (n / 16 % 16), hexChar (n % 16)]

/-- Modelled from the spec: `to_packet` from `git_cdn/packet_line.py` is
not under src/; per the spec it emits a packet-line frame: a 4-hex length
prefix counting itself, followed by the payload. -/
def to_packet (payload : List Nat) : List Nat := toHex4 (payload.length + 4) ++ payload

example : to_packet (strB "ERR not our ref") = strB "0013ERR not our ref" := by decide

/-- The post-termination step of `UploadPackHandler._do_upload_pack` and
`_write_pack_error` (upload_pack.py lines 105-124): the frames written to
the client writer after the subprocess ends, and whether
`upload_pack_status` was bound to `"error"`.  Neither branch raises. -/
structure UploadPackPost where
  writes : List (List Nat)
  statusError : Bool
deriving DecidableEq

def doUploadPackFinal (returncode : Int) (stderrData : List Nat) : UploadPackPost :=
  if returncode ≠ 0 then
    { writes := [to_packet (strB "ERR " ++ stderrData)], statusError := true }
  else { writes := [], statusError := false }

/-- Claim C6: when the upload-pack subprocess exits nonzero, exactly one
packet-line `ERR` frame containing its stderr is written to the client,
the `upload_pack_status` context is set to `"error"`, and nothing is
raised ( the branch returns a value); a zero exit writes nothing. -/
theorem c6_upload_pack_error (rc : Int) (stderrData : List Nat) (hrc : rc ≠ 0) :
    doUploadPackFinal rc stderrData =
      { writes := [to_packet (strB "ERR " ++ stderrData)], statusError := true } ∧
    (doUploadPackFinal rc stderrData).writes.length = 1 ∧
    doUploadPackFinal 0 stderrData = { writes := [], statusError := false } := by
  refine ⟨?_, ?_, ?_⟩
  · simp [doUploadPackFinal, hrc]
  · simp [doUploadPackFinal, hrc]
  · simp [doUploadPackFinal]

/-- Witness for `c6_upload_pack_error`: returncode 128 with stderr
`"not our ref"` produces the single `ERR` frame and the error status. -/
theorem c6_witness :
    doUploadPackFinal 128 (strB "not our ref") =
      { writes := [to_packet (strB "ERR not our ref")], statusError := true } :=
  (c6_upload_pack_error 128 (strB "not our ref") (by decide)).1

/-! ## `UploadPackHandler.run` dispatch (`upload_pack.py`, lines 216-232) -/

/-- Python's `repr` of one byte inside a bytes literal quoted by `q`. -/
def byteReprChar (q c : Nat) : List Nat :=
  if c = 92 then [92, 92]
  else if c = q then [92, q]
  else if c = 9 then [92, 116]
  else if c = 10 then [92, 110]
  else if c = 13 then [92, 114]
  else if 32 ≤ c ∧ c ≤ 126 then [c]
  else [92, 120, hexChar (c / 16 % 16), hexChar (c % 16)]

/-- Python's `repr` of a bytes object, as interpolated by the f-string
`f"Wrong upload pack input: {parsed_input.input[:128]}"`: `b'...'` quoted
with a single quote, or a double quote when the bytes contain a single
quote but no double quote. -/
def bytesRepr (bs : List Nat) : List Nat :=
  let q := if 39 ∈ bs ∧ ¬ 34 ∈ bs then 34 else 39
  [98, q] ++ bs.flatMap (byteReprChar q) ++ [q]

/-- The parsed negotiation input as consumed by `run()`: the raw bytes,
the wants, the parse-error flag and the cacheability verdict. -/
structure ParsedInput where
  rawInput : List Nat
  wants : List (List Nat)
  parseError : Bool
  cacheable : Bool
deriving DecidableEq

/-- Where one call of `run()` ends up. -/
inductive RunDispatch where
  | wroteError (frame : List Nat)  -- `_write_pack_error`, then return
  | noop                           -- empty wants: log and return
  | cachedPath                     -- `_run_with_cache(parsed_input)`
  | directPath                     -- `_execute(parsed_input)`
deriving DecidableEq

/-- `UploadPackHandler.run` (upload_pack.py lines 216-232). -/
def runModel (p : ParsedInput) : RunDispatch :=
  if p.parseError then
    .wroteError (to_packet
      (strB "ERR Wrong upload pack input: " ++ bytesRepr (p.rawInput.take 128)))
  else if p.wants = [] then .noop
  else if p.cacheable then .cachedPath else .directPath

/-- Claim C8: on `parse_error` a single `ERR` frame quoting at most the
first 128 input bytes is written and no subprocess path is taken; on
empty `wants` nothing is written; otherwise the cached path is taken
exactly when `can_be_cached()` holds. -/
theorem c8_run_dispatch (p : ParsedInput) :
    (p.parseError = true → runModel p =
      RunDispatch.wroteError (to_packet
        (strB "ERR Wrong upload pack input: " ++ bytesRepr (p.rawInput.take 128)))) ∧
    (p.parseError = false → p.wants = [] → runModel p = RunDispatch.noop) ∧
    (p.parseError = false → p.wants ≠ [] →
      runModel p = if p.cacheable then RunDispatch.cachedPath else RunDispatch.directPath) := by
  refine ⟨?_, ?_, ?_⟩
  · intro h
    simp [runModel, h]
  · intro h hw
    simp [runModel, h, hw]
  · intro h hw
    simp [runModel, h, hw]

/-- Witness for `c8_run_dispatch`: a malformed request writes the quoted
`ERR` frame; a well-formed cacheable request goes to the cached path. -/
theorem c8_witness :
    runModel { rawInput := strB "bad", wants := [], parseError := true, cacheable := false } =
      RunDispatch.wroteError (to_packet
        (strB "ERR Wrong upload pack input: " ++ bytesRepr (strB "bad"))) ∧
    runModel { rawInput := [], wants := [strB "a"], parseError := false, cacheable := true } =
      RunDispatch.cachedPath :=
  ⟨by
    have h := (c8_run_dispatch
      { rawInput := strB "bad", wants := [], parseError := true, cacheable := false }).1 rfl
    simpa using h,
   by
    have h := (c8_run_dispatch
      { rawInput := [], wants := [strB "a"], parseError := false, cacheable := true }).2.2
      rfl (by decide)
    simpa using h⟩

/-! ## `RepoCache.run_git` credential redaction (`repo_cache.py`, lines 91-134) -/

/-- Python's `s.replace(pat, rep)` scan for a nonempty `pat`: replace
every leftmost non-overlapping occurrence of `pat`, scanning left to
right.  Each step consumes at least one byte of the subject, so a fuel of
`s.length` makes the recursion structural (the fuel-exhausted arm is
unreachable when the fuel starts at the subject's length). -/
def pyReplaceGo (pat rep : List Nat) : Nat → List Nat → List Nat
  | _, [] => []
  | 0, s => s
  | fuel + 1, c :: rest =>
    if pat.isPrefixOf (c :: rest) then
      rep ++ pyReplaceGo pat rep fuel (List.drop pat.length (c :: rest))
    else c :: pyReplaceGo pat rep fuel rest

/-- Python's `s.replace(pat, rep)` on bytes.  The empty pattern
intersperses `rep` around every byte, as in Python. -/
def pyReplace (s pat rep : List Nat) : List Nat :=
  if pat.isEmpty then rep ++ s.flatMap fun c => c :: rep
  else pyReplaceGo pat rep s.length s

/-- The redaction in `run_git`'s `finally` block (repo_cache.py lines
115-120): `data.replace(self.auth.encode(), self.auth.encode()[:2] + b"<XX>")`. -/
def redact (auth s : List Nat) : List Nat :=
  pyReplace s auth (auth.take 2 ++ strB "<XX>")

example : redact (strB "user:tok") (strB "x user:tok y") = strB "x us<XX> y" := by
  simp [redact, pyReplace, strB]
  decide

/-- The `git_cmd done` log record fields carrying captured output
(truncated to 128 bytes by `[:128]` after decoding). -/
structure GitCmdLog where
  stdoutLogged : List Nat
  stderrLogged : List Nat
deriving DecidableEq

/-- What `run_git` hands back on the non-raising path: the emitted log
record and the returned `(stdout, stderr, returncode)`. -/
structure RunGitOk where
  logRecord : GitCmdLog
  stdoutRet : List Nat
  stderrRet : List Nat
  returncodeRet : Int
deriving DecidableEq

/-- The `finally` block of `RepoCache.run_git` (repo_cache.py lines
112-134): both captured outputs are redacted, then
`if b"HTTP Basic: Access denied" in stderr_data: raise HTTPUnauthorized
(reason=stderr_data)`, else the `git_cmd done` record is logged and the
redacted outputs are returned. -/
def runGitFinal (auth stdoutRaw stderrRaw : List Nat) (rc : Int) : Except PyExc RunGitOk :=
  let so := redact auth stdoutRaw
  let se := redact auth stderrRaw
  if containsSub (strB "HTTP Basic: Access denied") se then
    .error (.httpUnauthorized se)
  else
    .ok { logRecord := { stdoutLogged := so.take 128, stderrLogged := se.take 128 },
          stdoutRet := so, stderrRet := se, returncodeRet := rc }

/-- Claim C9 counterexample: with the two-byte credential `b"ab"` the
replacement `auth[:2] + b"<XX>"` still begins with the full credential,
so the emitted `git_cmd done` record for a stderr of `b"ab"` contains the
credential — the claim's "no emitted record contains the full credential"
is false. -/
theorem c9_counterexample :
    runGitFinal (strB "ab") [] (strB "ab") 0 =
      Except.ok
        { logRecord := { stdoutLogged := [], stderrLogged := strB "ab<XX>" },
          stdoutRet := [], stderrRet := strB "ab<XX>", returncodeRet := 0 } ∧
    containsSub (strB "ab") (strB "ab<XX>") = true := by
  constructor
  · simp [runGitFinal, redact, pyReplace, strB]
    decide
  · decide

/-- Claim C9 (amended): before any log emission or error propagation both
captured outputs are rewritten by replacing every leftmost non-overlapping
occurrence of the credential with its first two characters followed by
`<XX>`; the log record and the returned values carry exactly the redacted
strings (so the full credential only survives in degenerate cases such as
credentials of at most two bytes, as the counterexample shows); and
`HTTPUnauthorized` (401) carrying the redacted stderr is raised exactly
when the redacted stderr contains `"HTTP Basic: Access denied"`. -/
theorem c9_redaction (auth stdoutRaw stderrRaw : List Nat) (rc : Int) :
    (containsSub (strB "HTTP Basic: Access denied") (redact auth stderrRaw) = true →
      runGitFinal auth stdoutRaw stderrRaw rc =
        Except.error (PyExc.httpUnauthorized (redact auth stderrRaw))) ∧
    (containsSub (strB "HTTP Basic: Access denied") (redact auth stderrRaw) = false →
      runGitFinal auth stdoutRaw stderrRaw rc =
        Except.ok
          { logRecord := { stdoutLogged := (redact auth stdoutRaw).take 128,
                           stderrLogged := (redact auth stderrRaw).take 128 },
            stdoutRet := redact auth stdoutRaw,
            stderrRet := redact auth stderrRaw,
            returncodeRet := rc }) := by
  constructor
  · intro h
    simp [runGitFinal, h]
  · intro h
    simp [runGitFinal, h]

/-- Witness for `c9_redaction`: an upstream `HTTP Basic: Access denied`
with the credential embedded in stderr raises 401 with redacted reason. -/
theorem c9_witness :
    runGitFinal (strB "user:tok") [] (strB "HTTP Basic: Access denied user:tok") 0 =
      Except.error (PyExc.httpUnauthorized (strB "HTTP Basic: Access denied us<XX>")) := by
  have hred : redact (strB "user:tok") (strB "HTTP Basic: Access denied user:tok") =
      strB "HTTP Basic: Access denied us<XX>" := by
    simp [redact, pyReplace, strB]
    decide
  have h := (c9_redaction (strB "user:tok") [] (strB "HTTP Basic: Access denied user:tok") 0).1
    (by rw [hred]; decide)
  rw [hred] at h
  exact h

/-! ## Pack cache write-through (`pack_cache.py`, `PackCache.cache_pack`,
lines 107-135)

`PacketLineChunkParser` from `git_cdn/packet_line.py` is not under src/;
it is modelled from the spec (section 4.B): an asynchronous sequence that
yields successive raw frame chunks (4-hex length prefix plus payload)
until a flush `0000` at a frame boundary terminates it normally, and that
fails with a decode error on a malformed prefix or a premature EOF. -/

/-- Value of one ASCII hex digit. -/
def hexDigit (c : Nat) : Option Nat :=
  if 48 ≤ c ∧ c ≤ 57 then some (c - 48)
  else if 97 ≤ c ∧ c ≤ 102 then some (c - 87)
  else if 65 ≤ c ∧ c ≤ 70 then some (c - 55)
  else none

/-- Value of a 4-hex-digit packet-line length prefix. -/
def pktLen (a b c d : Nat) : Option Nat :=
  match hexDigit a, hexDigit b, hexDigit c, hexDigit d with
  | some x, some y, some z, some w => some (((x * 16 + y) * 16 + z) * 16 + w)
  | _, _, _, _ => none

/-- Modelled from the spec: the frame walk of `PacketLineChunkParser`.
Returns the chunks yielded before the sequence ended and `none` on normal
flush termination or `some msg` on a decode failure.  Every step consumes
at least four bytes, so a fuel of the input length makes the recursion
structural (the fuel-exhausted arm is unreachable).  Lengths 1 to 3
(delimiter packets such as `0001`) carry no payload. -/
def parsePktGo : Nat → List Nat → List (List Nat) × Option String
  | _, [] => ([], some "packet length: premature EOF")
  | 0, _ :: _ => ([], some "fuel exhausted")
  | fuel + 1, a :: b :: c :: d :: rest =>
    match pktLen a b c d with
    | none => ([], some "invalid packet line length")
    | some 0 => ([[a, b, c, d]], none)
    | some (n + 1) =>
      if n + 1 < 4 then
        let p := parsePktGo fuel rest
        ([a, b, c, d] :: p.1, p.2)
      else if rest.length < n + 1 - 4 then ([], some "packet payload: premature EOF")
      else
        let p := parsePktGo fuel (rest.drop (n + 1 - 4))
        (([a, b, c, d] ++ rest.take (n + 1 - 4)) :: p.1, p.2)
  | _ + 1, _ => ([], some "packet length: premature EOF")

/-- Modelled from the spec: one full run of `PacketLineChunkParser` over
the upstream bytes. -/
def parsePkt (input : List Nat) : List (List Nat) × Option String :=
  parsePktGo input.length input

example : parsePkt (strB "0008abcd0000") = ([strB "0008abcd", strB "0000"], none) := by
  decide
example : (parsePkt (strB "0008abcd")).2.isSome = true := by decide
example : (parsePkt (strB "zzzz")).2.isSome = true := by decide

/-- Outcome of `PackCache.cache_pack`: the cache file content afterwards
(`none` when the file was unlinked) and the bytes flushed to the client
writer by the abort path. -/
structure CachePackResult where
  fileContent : Option (List Nat)
  sentToClient : List Nat
deriving DecidableEq

/-- `PackCache.cache_pack` (pack_cache.py lines 107-135): write each
yielded chunk to the file; on a parser exception, read the file back and
flush it to `stream_writer` when one was supplied, then unlink the file
(`os.unlink` wrapped in `try/except FileNotFoundError`, so a concurrently
removed file is tolerated); on success keep the file. -/
def cache_pack (input : List Nat) (teePresent : Bool) : CachePackResult :=
  let p := parsePkt input
  match p.2 with
  | none => { fileContent := some p.1.flatten, sentToClient := [] }
  | some _ =>
    { fileContent := none
      sentToClient := if teePresent then p.1.flatten else [] }

theorem hexDigit_eq_zero {x : Nat} (h : hexDigit x = some 0) : x = 48 := by
  unfold hexDigit at h
  split_ifs at h with h1 h2 h3 <;> simp at h <;> omega

theorem pktLen_zero {a b c d : Nat} (h : pktLen a b c d = some 0) :
    [a, b, c, d] = strB "0000" := by
  have hz : strB "0000" = [48, 48, 48, 48] := by decide
  rw [hz]
  cases ha : hexDigit a with
  | none => simp [pktLen, ha] at h
  | some x =>
    cases hb : hexDigit b with
    | none => simp [pktLen, ha, hb] at h
    | some y =>
      cases hc : hexDigit c with
      | none => simp [pktLen, ha, hb, hc] at h
      | some z =>
        cases hd : hexDigit d with
        | none => simp [pktLen, ha, hb, hc, hd] at h
        | some w =>
          simp [pktLen, ha, hb, hc, hd] at h
          have hx : x = 0 := by omega
          have hy : y = 0 := by omega
          have hz' : z = 0 := by omega
          have hw : w = 0 := by omega
          subst hx hy hz' hw
          simp [hexDigit_eq_zero ha, hexDigit_eq_zero hb,
            hexDigit_eq_zero hc, hexDigit_eq_zero hd]

/-- A successful parser run always ends with the upstream's flush chunk:
the concatenation of the yielded chunks ends in `b"0000"`. -/
theorem parsePktGo_ok_ends_flush :
    ∀ (fuel : Nat) (input : List Nat) (chunks : List (List Nat)),
      parsePktGo fuel input = (chunks, none) →
      ∃ pre, chunks.flatten = pre ++ strB "0000" := by
  intro fuel
  induction fuel with
  | zero =>
    intro input chunks h
    match input with
    | [] => simp [parsePktGo] at h
    | _ :: _ => simp [parsePktGo] at h
  | succ f ih =>
    intro input chunks h
    match input with
    | [] => simp [parsePktGo] at h
    | [a] => simp [parsePktGo] at h
    | [a, b] => simp [parsePktGo] at h
    | [a, b, c] => simp [parsePktGo] at h
    | a :: b :: c :: d :: rest =>
      rw [parsePktGo] at h
      cases hlen : pktLen a b c d with
      | none => simp [hlen] at h
      | some n =>
        match n with
        | 0 =>
          simp only [hlen] at h
          have hch : [[a, b, c, d]] = chunks := congrArg Prod.fst h
          refine ⟨[], ?_⟩
          rw [← hch]
          simp [pktLen_zero hlen]
        | n + 1 =>
          simp only [hlen] at h
          by_cases hsmall : n + 1 < 4
          · rw [if_pos hsmall] at h
            have hch : [a, b, c, d] :: (parsePktGo f rest).1 = chunks :=
              congrArg Prod.fst h
            have herr : (parsePktGo f rest).2 = none := congrArg Prod.snd h
            obtain ⟨pre, hpre⟩ := ih rest (parsePktGo f rest).1 (by rw [← herr])
            refine ⟨[a, b, c, d] ++ pre, ?_⟩
            rw [← hch]
            simp only [List.flatten_cons, hpre, List.append_assoc]
          · rw [if_neg hsmall] at h
            by_cases heof : rest.length < n + 1 - 4
            · rw [if_pos heof] at h
              simp at h
            · rw [if_neg heof] at h
              have hch : ([a, b, c, d] ++ rest.take (n + 1 - 4)) ::
                  (parsePktGo f (rest.drop (n + 1 - 4))).1 = chunks :=
                congrArg Prod.fst h
              have herr : (parsePktGo f (rest.drop (n + 1 - 4))).2 = none :=
                congrArg Prod.snd h
              obtain ⟨pre, hpre⟩ :=
                ih (rest.drop (n + 1 - 4)) (parsePktGo f (rest.drop (n + 1 - 4))).1
                  (by rw [← herr])
              refine ⟨([a, b, c, d] ++ rest.take (n + 1 - 4)) ++ pre, ?_⟩
              rw [← hch]
              simp only [List.flatten_cons, hpre, List.append_assoc]

/-- Claim C5: on a parser exception `cache_pack` flushes the bytes already
written to the client exactly when a tee writer was supplied and unlinks
the file in all cases; on a run with no parser exception the file is kept
and its content ends with the upstream's `0000` flush. -/
theorem c5_cache_pack (input : List Nat) (tee : Bool) :
    ((parsePkt input).2.isSome = true →
      cache_pack input tee =
        { fileContent := none,
          sentToClient := if tee then (parsePkt input).1.flatten else [] }) ∧
    ((parsePkt input).2 = none →
      cache_pack input tee =
        { fileContent := some ((parsePkt input).1.flatten), sentToClient := [] } ∧
      ∃ pre, (parsePkt input).1.flatten = pre ++ strB "0000") := by
  constructor
  · intro h
    rw [Option.isSome_iff_exists] at h
    obtain ⟨msg, hmsg⟩ := h
    simp [cache_pack, hmsg]
  · intro h
    refine ⟨by simp [cache_pack, h], ?_⟩
    have := parsePktGo_ok_ends_flush input.length input (parsePkt input).1
      (by rw [← h]; rfl)
    simpa using this

/-- Witness for `c5_cache_pack`: a well-formed two-frame stream (one data
frame, then the flush) is kept in the cache file, ending in `b"0000"`;
nothing goes to the tee writer. -/
theorem c5_witness :
    (parsePkt (strB "0008abcd0000")).2 = none ∧
      cache_pack (strB "0008abcd0000") true =
        { fileContent := some (strB "0008abcd0000"), sentToClient := [] } := by
  refine ⟨by decide, ?_⟩
  have h := ((c5_cache_pack (strB "0008abcd0000") true).2 (by decide)).1
  rw [h]
  decide
